import Mathlib

/-!
Shallow embedding of `src/firmware/NexaCtrl.cpp` (NexaCtrl library v.02).

The C++ object keeps a heap buffer `low_pulse_array` of low-pulse durations
(microseconds).  Each command method fills the buffer through `SetBit`
and then calls `Transmit`, which replays the buffer on the tx pin.

Embedding choices:
* machine integers are `Nat`; the 32-bit parameters (`unsigned long`,
  `unsigned int` on the 32-bit Particle target) are reduced with `u32`
  at function entry;
* buffer mutation is modelled as an explicit write trace
  `List (Nat × Nat)` of (index, value) pairs, replayed left to right
  over the zero-initialised (`calloc`) array by `applyWrites`;
* the hardware calls made by `Transmit` (pin writes, delays, interrupt
  masking, LED indication) are modelled as a trace of events `Ev`.
-/

namespace NexaCtrl

/-- `const int NexaCtrl::kPulseHigh = 275`. -/
def kPulseHigh : Nat := 275

/-- `const int NexaCtrl::kPulseLow0 = 275`. -/
def kPulseLow0 : Nat := 275

/-- `const int NexaCtrl::kPulseLow1 = 1225`. -/
def kPulseLow1 : Nat := 1225

/-- `const int NexaCtrl::kLowPulseLength = 64`. -/
def kLowPulseLength : Nat := 64

/-- `const int NexaCtrl::kControllerIdOffset = 0`. -/
def kControllerIdOffset : Nat := 0

/-- `const int NexaCtrl::kControllerIdLength = 26`. -/
def kControllerIdLength : Nat := 26

/-- `const int NexaCtrl::kGroupFlagOffset = 26`. -/
def kGroupFlagOffset : Nat := 26

/-- `const int NexaCtrl::kOnFlagOffset = 27`. -/
def kOnFlagOffset : Nat := 27

/-- `const int NexaCtrl::kDeviceIdOffset = 28`. -/
def kDeviceIdOffset : Nat := 28

/-- `const int NexaCtrl::kDeviceIdLength = 4`. -/
def kDeviceIdLength : Nat := 4

/-- `const int NexaCtrl::kDimOffset = 32`. -/
def kDimOffset : Nat := 32

/-- `const int NexaCtrl::kDimLength = 4`. -/
def kDimLength : Nat := 4

/-- Reduction of a value to the 32-bit `unsigned long` / `unsigned int`
range of the target platform, applied at parameter boundaries. -/
def u32 (n : Nat) : Nat := n % 4294967296

/-- `unsigned long power2(int power) { return 1 << power; }` — the shift of
the `int` literal 1, read back as a 32-bit unsigned value. -/
def power2 (power : Nat) : Nat := (1 <<< power) % 4294967296

/-- `void itob(bool *bits, unsigned long integer, int length)`: fills
`bits[0..length-1]` MSB first; bit `i` is set (and the power of two
subtracted) exactly when `integer / power2(length-1-i) == 1`.  The filled
array is returned as the list of its entries in index order. -/
def itob : Nat → Nat → List Bool
  | _, 0 => []
  | integer, k + 1 =>
    if integer / power2 k = 1 then
      true :: itob (integer - power2 k) k
    else
      false :: itob integer k

/-- `void NexaCtrl::SetBit(unsigned int bit_index, bool value)`: the two
buffer stores it performs, in program order.  Data 0 is wire `01`
(`kPulseLow0` then `kPulseLow1`), data 1 is wire `10`. -/
def SetBit (bit_index : Nat) (value : Bool) : List (Nat × Nat) :=
  if !value then
    [(bit_index * 2, kPulseLow0), (bit_index * 2 + 1, kPulseLow1)]
  else
    [(bit_index * 2, kPulseLow1), (bit_index * 2 + 1, kPulseLow0)]

/-- The `for (bit=0; bit < length; bit++) SetBit(offset+bit, bits[bit])`
loop shared by `SetDeviceBits`, `SetControllerBits` and the dim loop of
`DeviceDim`: the concatenation of the stores of each `SetBit` call. -/
def setBitLoop (offset : Nat) : List Bool → List (Nat × Nat)
  | [] => []
  | b :: bs => SetBit offset b ++ setBitLoop (offset + 1) bs

/-- `void NexaCtrl::SetDeviceBits(unsigned int device_id)`. -/
def SetDeviceBits (device_id : Nat) : List (Nat × Nat) :=
  setBitLoop kDeviceIdOffset (itob device_id kDeviceIdLength)

/-- `void NexaCtrl::SetControllerBits(unsigned long controller_id)`. -/
def SetControllerBits (controller_id : Nat) : List (Nat × Nat) :=
  setBitLoop kControllerIdOffset (itob controller_id kControllerIdLength)

/-- Buffer stores of `NexaCtrl::DeviceOn`, in program order. -/
def DeviceOnWrites (controller_id device_id : Nat) : List (Nat × Nat) :=
  ((SetControllerBits (u32 controller_id)
      ++ SetBit kGroupFlagOffset false)
      ++ SetBit kOnFlagOffset true)
      ++ SetDeviceBits (u32 device_id)

/-- Buffer stores of `NexaCtrl::DeviceOff`, in program order. -/
def DeviceOffWrites (controller_id device_id : Nat) : List (Nat × Nat) :=
  ((SetControllerBits (u32 controller_id)
      ++ SetBit kGroupFlagOffset false)
      ++ SetBit kOnFlagOffset false)
      ++ SetDeviceBits (u32 device_id)

/-- `dim_level *= (15/100)` of `NexaCtrl::DeviceDim` — `15/100` is the
truncating integer division of the source. -/
def dimScale (dim_level : Nat) : Nat := u32 dim_level * (15 / 100)

/-- Buffer stores of `NexaCtrl::DeviceDim`, in program order: controller
bits, group flag 0, the two direct stores of `kPulseLow0` to the on-flag
slots, device bits, then the dim-bit loop over `itob(dim_bits, dim_level,
kDimLength)`. -/
def DeviceDimWrites (controller_id device_id dim_level : Nat) : List (Nat × Nat) :=
  (((SetControllerBits (u32 controller_id)
      ++ SetBit kGroupFlagOffset false)
      ++ [(kOnFlagOffset * 2, kPulseLow0), (kOnFlagOffset * 2 + 1, kPulseLow0)])
      ++ SetDeviceBits (u32 device_id))
      ++ setBitLoop kDimOffset (itob (dimScale dim_level) kDimLength)

/-- Buffer stores of `NexaCtrl::GroupOn` (local `device_id = 0`), in
program order: controller bits, device bits, group flag 1, on flag 1. -/
def GroupOnWrites (controller_id : Nat) : List (Nat × Nat) :=
  ((SetControllerBits (u32 controller_id)
      ++ SetDeviceBits 0)
      ++ SetBit kGroupFlagOffset true)
      ++ SetBit kOnFlagOffset true

/-- Buffer stores of `NexaCtrl::GroupOff`, in program order. -/
def GroupOffWrites (controller_id : Nat) : List (Nat × Nat) :=
  ((SetControllerBits (u32 controller_id)
      ++ SetDeviceBits 0)
      ++ SetBit kGroupFlagOffset true)
      ++ SetBit kOnFlagOffset false

/-- Replay a write trace left to right over an array modelled as a total
function from index to stored value. -/
def applyWrites : (Nat → Nat) → List (Nat × Nat) → (Nat → Nat)
  | a, [] => a
  | a, (i, v) :: ws => applyWrites (fun j => if j = i then v else a j) ws

/-- The buffer as `calloc` leaves it: every entry 0. -/
def callocZero : Nat → Nat := fun _ => 0

/-- The contents of `low_pulse_array` after a command replayed its write
trace over the zero-initialised buffer. -/
def bufferAfter (ws : List (Nat × Nat)) : Nat → Nat := applyWrites callocZero ws

/-- The low-pulse durations consumed by the data loop of
`NexaCtrl::Transmit`: `low_pulse_array[0]` up to
`low_pulse_array[pulse_length-1]` in order. -/
def transmittedLows (a : Nat → Nat) (pulse_length : Nat) : List Nat :=
  (List.range pulse_length).map a

/-- Hardware events performed by `NexaCtrl::Transmit` and its latch
helpers: tx-pin writes, microsecond delays, LED indication and interrupt
masking. -/
inductive Ev where
  | txHigh : Ev
  | txLow : Ev
  | ledOn : Ev
  | ledOff : Ev
  | delayUs : Nat → Ev
  | intsOff : Ev
  | intsOn : Ev
deriving DecidableEq

/-- `void NexaCtrl::TransmitLatch1(void)`: tx high, delay `kPulseLow0`,
tx low, delay 9900. -/
def TransmitLatch1 : List Ev :=
  [Ev.txHigh, Ev.delayUs kPulseLow0, Ev.txLow, Ev.delayUs 9900]

/-- `void NexaCtrl::TransmitLatch2(void)`: tx high, delay `kPulseLow0`,
tx low, delay 2675. -/
def TransmitLatch2 : List Ev :=
  [Ev.txHigh, Ev.delayUs kPulseLow0, Ev.txLow, Ev.delayUs 2675]

/-- One iteration of the `transmit_count` loop of `NexaCtrl::Transmit`:
optional LED on, Latch1, Latch2, the data-pulse loop over
`low_pulse_array[0..pulse_length-1]`, a trailing Latch2, optional LED
off, then the `delayMicroseconds(10000)` gap. -/
def TransmitRepeat (led_pin : Nat) (a : Nat → Nat) (pulse_length : Nat) : List Ev :=
  (if led_pin > 0 then [Ev.ledOn] else [])
    ++ TransmitLatch1
    ++ TransmitLatch2
    ++ (List.range pulse_length).flatMap
        (fun i => [Ev.txHigh, Ev.delayUs kPulseHigh, Ev.txLow, Ev.delayUs (a i)])
    ++ TransmitLatch2
    ++ (if led_pin > 0 then [Ev.ledOff] else [])
    ++ [Ev.delayUs 10000]

/-- `void NexaCtrl::Transmit(int pulse_length)`: `noInterrupts()`, the
repeat loop run exactly twice, `interrupts()`. -/
def Transmit (led_pin : Nat) (a : Nat → Nat) (pulse_length : Nat) : List Ev :=
  Ev.intsOff ::
    (TransmitRepeat led_pin a pulse_length
      ++ TransmitRepeat led_pin a pulse_length
      ++ [Ev.intsOn])

/-- Modelled from the spec: the repository contains no receiver, so there
is no decoder in `src/`; this is the round-trip direction of the wire
encoding law of the spec, mapping a known-correct low-pulse pair back to
the logical bit it encodes. -/
def decodePair : Nat × Nat → Option Bool
  | (275, 1225) => some false
  | (1225, 275) => some true
  | _ => none

/-- Field state of a `NexaCtrl` object; `none` models a member the C++
constructor left uninitialised, and `low_pulse_array = none` a buffer
that was never allocated (`some capacity` records the `calloc` size). -/
structure NexaCtrlState where
  tx_pin_ : Option Nat
  rx_pin_ : Option Nat
  led_pin_ : Option Nat
  low_pulse_array : Option Nat
deriving DecidableEq

/-- `pinMode` side effects of the constructors. -/
inductive CtorEv where
  | pinModeOutput : Nat → CtorEv
  | pinModeInput : Nat → CtorEv
deriving DecidableEq

/-- A freshly created object, before any constructor statement ran: every
member uninitialised. -/
def uninitState : NexaCtrlState :=
  { tx_pin_ := none, rx_pin_ := none, led_pin_ := none, low_pulse_array := none }

/-- `NexaCtrl::NexaCtrl(unsigned int tx_pin, unsigned int rx_pin)`: sets
`tx_pin_` and `rx_pin_`, configures both pins, and allocates
`low_pulse_array` with `calloc(kLowPulseLength + (2 * kDimLength), ...)`.
Result: the object state and the `pinMode` events. -/
def NexaCtrlCtor2 (tx_pin rx_pin : Nat) : NexaCtrlState × List CtorEv :=
  ({ uninitState with
      tx_pin_ := some tx_pin
      rx_pin_ := some rx_pin
      low_pulse_array := some (kLowPulseLength + 2 * kDimLength) },
   [CtorEv.pinModeOutput tx_pin, CtorEv.pinModeInput rx_pin])

/-- `NexaCtrl::NexaCtrl(unsigned int tx_pin, unsigned int rx_pin,
unsigned int led_pin)`: sets `led_pin_`, configures it, then executes the
statement `NexaCtrl(tx_pin, rx_pin);`.  In C++ that statement constructs
a value-initialised temporary object that is immediately discarded — it
is not a delegating call — so only the side effects (the `pinMode` calls
of the temporary) happen, while the members of `this` other than
`led_pin_` stay uninitialised. -/
def NexaCtrlCtor3 (tx_pin rx_pin led_pin : Nat) : NexaCtrlState × List CtorEv :=
  let s1 := { uninitState with led_pin_ := some led_pin }
  let temp := NexaCtrlCtor2 tx_pin rx_pin
  (s1, CtorEv.pinModeOutput led_pin :: temp.2)

/-- The MSB-first fixed-width binary representation of `n` — the spec-side
description (standard big-endian expansion) that `itob` is compared
against: entry `i` is bit `length - 1 - i` of `n`. -/
def natBitsBE (length n : Nat) : List Bool :=
  (List.range length).map (fun i => n.testBit (length - 1 - i))

/-! ### Helper lemmas about the write-trace machinery -/

theorem applyWrites_append (a : Nat → Nat) (xs ys : List (Nat × Nat)) :
    applyWrites a (xs ++ ys) = applyWrites (applyWrites a xs) ys := by
  induction xs generalizing a with
  | nil => rfl
  | cons p xs ih =>
    cases p with
    | mk i v => simp [applyWrites, ih]

theorem applyWrites_notMem (a : Nat → Nat) (ws : List (Nat × Nat)) (j : Nat)
    (h : ∀ p ∈ ws, p.1 ≠ j) : applyWrites a ws j = a j := by
  induction ws generalizing a with
  | nil => rfl
  | cons p ws ih =>
    cases p with
    | mk i v =>
      have hij : i ≠ j := h (i, v) (List.mem_cons_self _ _)
      have htail : ∀ p ∈ ws, p.1 ≠ j := fun p hp => h p (List.mem_cons_of_mem _ hp)
      rw [applyWrites, ih _ htail]
      simp [Ne.symm hij]

theorem applyWrites_congr_at (a b : Nat → Nat) (ws : List (Nat × Nat)) (j : Nat)
    (h : a j = b j) : applyWrites a ws j = applyWrites b ws j := by
  induction ws generalizing a b with
  | nil => exact h
  | cons p ws ih =>
    cases p with
    | mk i v =>
      rw [applyWrites, applyWrites]
      exact ih _ _ (by by_cases hji : j = i <;> simp [hji, h])

theorem itob_length (integer length : Nat) : (itob integer length).length = length := by
  induction length generalizing integer with
  | zero => rfl
  | succ k ih =>
    rw [itob]
    split <;> simp [ih]

theorem setBitLoop_mem_bound (bits : List Bool) (offset : Nat) :
    ∀ p ∈ setBitLoop offset bits, offset * 2 ≤ p.1 ∧ p.1 < (offset + bits.length) * 2 := by
  induction bits generalizing offset with
  | nil => simp [setBitLoop]
  | cons b bs ih =>
    intro p hp
    rw [setBitLoop, List.mem_append] at hp
    rcases hp with hp | hp
    · cases b <;> simp [SetBit] at hp <;> rcases hp with hp | hp <;>
        rw [Prod.ext_iff] at hp <;> simp_all <;> omega
    · have h2 := ih (offset + 1) p hp
      simp only [List.length_cons]
      omega

theorem SetControllerBits_mem_bound (c : Nat) :
    ∀ p ∈ SetControllerBits c, p.1 < 52 := by
  intro p hp
  have h := setBitLoop_mem_bound _ _ p hp
  rw [itob_length] at h
  simpa [kControllerIdOffset, kControllerIdLength] using h.2

theorem SetDeviceBits_mem_bound (d : Nat) :
    ∀ p ∈ SetDeviceBits d, 56 ≤ p.1 ∧ p.1 < 64 := by
  intro p hp
  have h := setBitLoop_mem_bound _ _ p hp
  rw [itob_length] at h
  constructor
  · simpa [kDeviceIdOffset] using h.1
  · simpa [kDeviceIdOffset, kDeviceIdLength] using h.2

theorem dimLoop_mem_bound (l : Nat) :
    ∀ p ∈ setBitLoop kDimOffset (itob l kDimLength), 64 ≤ p.1 ∧ p.1 < 72 := by
  intro p hp
  have h := setBitLoop_mem_bound _ _ p hp
  rw [itob_length] at h
  constructor
  · simpa [kDimOffset] using h.1
  · simpa [kDimOffset, kDimLength] using h.2

/-- Strip a controller-bits prefix: for a slot at index 52 or above the
controller writes (all below index 52) leave the zero buffer unchanged,
so the rest of the trace alone determines the value. -/
theorem bufferAfter_stripController (c : Nat) (rest : List (Nat × Nat)) (j : Nat)
    (hj : 52 ≤ j) :
    bufferAfter (SetControllerBits c ++ rest) j = applyWrites callocZero rest j := by
  rw [bufferAfter, applyWrites_append]
  refine applyWrites_congr_at _ _ _ _ ?_
  exact applyWrites_notMem _ _ _ fun p hp => by
    have := SetControllerBits_mem_bound c p hp
    omega

/-! ### Helper lemmas about `power2`, `itob` and `natBitsBE` -/

theorem power2_eq_pow (p : Nat) (hp : p < 32) : power2 p = 2 ^ p := by
  rw [power2, Nat.shiftLeft_eq, one_mul]
  exact Nat.mod_eq_of_lt (Nat.pow_lt_pow_right (by norm_num) hp)

theorem natBitsBE_succ (k n : Nat) :
    natBitsBE (k + 1) n = n.testBit k :: natBitsBE k n := by
  rw [natBitsBE, natBitsBE, List.range_succ_eq_map, List.map_cons, List.map_map]
  refine congrArg₂ _ (by simp) ?_
  refine List.map_congr_left fun i _ => ?_
  simp only [Function.comp_apply]
  congr 1
  omega

theorem testBit_sub_pow (k n j : Nat) (h1 : 2 ^ k ≤ n) (hj : j < k) :
    (n - 2 ^ k).testBit j = n.testBit j := by
  rw [Nat.testBit_to_div_mod, Nat.testBit_to_div_mod]
  have hsplit : n = (n - 2 ^ k) + 2 ^ (k - j) * 2 ^ j := by
    have : 2 ^ (k - j) * 2 ^ j = 2 ^ k := by
      rw [← pow_add]
      congr 1
      omega
    omega
  have hdiv : n / 2 ^ j = (n - 2 ^ k) / 2 ^ j + 2 ^ (k - j) := by
    conv_lhs => rw [hsplit]
    exact Nat.add_mul_div_right _ _ (Nat.pos_pow_of_pos j (by norm_num))
  rw [hdiv]
  have heven : 2 ^ (k - j) = 2 ^ (k - j - 1) * 2 := by
    rw [mul_comm, ← pow_succ']
    congr 1
    omega
  rw [heven, Nat.add_mul_mod_self_right]

theorem itob_eq_natBitsBE (length : Nat) (hlen : length ≤ 32) :
    ∀ n, n < 2 ^ length → itob n length = natBitsBE length n := by
  induction length with
  | zero =>
    intro n hn
    rfl
  | succ k ih =>
    intro n hn
    have hp2 : power2 k = 2 ^ k := power2_eq_pow k (by omega)
    have hklt : n / 2 ^ k < 2 := by
      apply Nat.div_lt_of_lt_mul
      calc n < 2 ^ (k + 1) := hn
        _ = 2 ^ k * 2 := pow_succ 2 k
    rw [itob, hp2, natBitsBE_succ]
    by_cases hq : n / 2 ^ k = 1
    · have hle : 2 ^ k ≤ n := by
        by_contra hlt
        rw [Nat.div_eq_of_lt (by omega)] at hq
        exact absurd hq (by norm_num)
      have hbit : n.testBit k = true := by
        rw [Nat.testBit_to_div_mod, hq]
        rfl
      rw [if_pos hq, hbit]
      have hrec : itob (n - 2 ^ k) k = natBitsBE k (n - 2 ^ k) := by
        refine ih (by omega) _ ?_
        have : 2 ^ (k + 1) = 2 ^ k + 2 ^ k := by rw [pow_succ]; ring
        omega
      rw [hrec, natBitsBE, natBitsBE]
      refine congrArg _ (List.map_congr_left fun i hi => ?_)
      rw [List.mem_range] at hi
      exact testBit_sub_pow k n _ hle (by omega)
    · have hq0 : n / 2 ^ k = 0 := by
        revert hklt hq
        generalize n / 2 ^ k = q
        intro hklt hq
        omega
      have hlt : n < 2 ^ k := by
        rw [Nat.div_eq_zero_iff (Nat.pos_pow_of_pos k (by norm_num))] at hq0
        exact hq0
      have hbit : n.testBit k = false := by
        rw [Nat.testBit_to_div_mod, hq0]
        norm_num
      rw [if_neg hq, hbit, ih (by omega) n hlt]

/-! ### Per-command slot evaluation: for indices at or above 52 the
controller writes are irrelevant, and writes of disjoint fields can be
stripped, leaving a closed computation. -/

theorem deviceOn_slot (c d j : Nat) (h1 : 52 ≤ j) (h2 : j < 56) :
    bufferAfter (DeviceOnWrites c d) j
      = applyWrites callocZero
          (SetBit kGroupFlagOffset false ++ SetBit kOnFlagOffset true) j := by
  rw [DeviceOnWrites]
  simp only [List.append_assoc]
  rw [bufferAfter_stripController _ _ _ h1, ← List.append_assoc, applyWrites_append,
    applyWrites_notMem _ _ _ fun p hp => by
      have := SetDeviceBits_mem_bound _ p hp; omega]

theorem deviceOff_slot (c d j : Nat) (h1 : 52 ≤ j) (h2 : j < 56) :
    bufferAfter (DeviceOffWrites c d) j
      = applyWrites callocZero
          (SetBit kGroupFlagOffset false ++ SetBit kOnFlagOffset false) j := by
  rw [DeviceOffWrites]
  simp only [List.append_assoc]
  rw [bufferAfter_stripController _ _ _ h1, ← List.append_assoc, applyWrites_append,
    applyWrites_notMem _ _ _ fun p hp => by
      have := SetDeviceBits_mem_bound _ p hp; omega]

theorem groupOn_slot (c j : Nat) (h1 : 52 ≤ j) :
    bufferAfter (GroupOnWrites c) j
      = applyWrites callocZero
          (SetDeviceBits 0
            ++ (SetBit kGroupFlagOffset true ++ SetBit kOnFlagOffset true)) j := by
  rw [GroupOnWrites]
  simp only [List.append_assoc]
  exact bufferAfter_stripController _ _ _ h1

theorem groupOff_slot (c j : Nat) (h1 : 52 ≤ j) :
    bufferAfter (GroupOffWrites c) j
      = applyWrites callocZero
          (SetDeviceBits 0
            ++ (SetBit kGroupFlagOffset true ++ SetBit kOnFlagOffset false)) j := by
  rw [GroupOffWrites]
  simp only [List.append_assoc]
  exact bufferAfter_stripController _ _ _ h1

theorem deviceDim_flag_slot (c d l j : Nat) (h1 : 52 ≤ j) (h2 : j < 56) :
    bufferAfter (DeviceDimWrites c d l) j
      = applyWrites callocZero
          (SetBit kGroupFlagOffset false
            ++ [(kOnFlagOffset * 2, kPulseLow0), (kOnFlagOffset * 2 + 1, kPulseLow0)]) j := by
  rw [DeviceDimWrites]
  simp only [List.append_assoc]
  rw [bufferAfter_stripController _ _ _ h1, ← List.append_assoc, ← List.append_assoc,
    applyWrites_append,
    applyWrites_notMem _ _ _ fun p hp => by
      have := dimLoop_mem_bound _ p hp; omega,
    applyWrites_append,
    applyWrites_notMem _ _ _ fun p hp => by
      have := SetDeviceBits_mem_bound _ p hp; omega]

theorem deviceDim_dim_slot (c d l j : Nat) (h1 : 64 ≤ j) :
    bufferAfter (DeviceDimWrites c d l) j
      = applyWrites
          (applyWrites callocZero
            (SetBit kGroupFlagOffset false
              ++ [(kOnFlagOffset * 2, kPulseLow0), (kOnFlagOffset * 2 + 1, kPulseLow0)]))
          (setBitLoop kDimOffset (itob (dimScale l) kDimLength)) j := by
  rw [DeviceDimWrites]
  simp only [List.append_assoc]
  rw [bufferAfter_stripController _ _ _ (by omega), ← List.append_assoc,
    applyWrites_append, applyWrites_append]
  refine applyWrites_congr_at _ _ _ _ ?_
  exact applyWrites_notMem _ _ _ fun p hp => by
    have := SetDeviceBits_mem_bound _ p hp; omega

theorem dimScale_eq_zero (l : Nat) : dimScale l = 0 := by
  simp [dimScale]

theorem SetBit_mem_bound (m : Nat) (b : Bool) (p : Nat × Nat) (hp : p ∈ SetBit m b) :
    p.1 = m * 2 ∨ p.1 = m * 2 + 1 := by
  cases b <;> simp [SetBit] at hp <;> rcases hp with hp | hp <;> simp [hp]

theorem DeviceOnWrites_bound (c d : Nat) : ∀ p ∈ DeviceOnWrites c d, p.1 < 64 := by
  intro p hp
  simp only [DeviceOnWrites, List.append_assoc, List.mem_append] at hp
  rcases hp with hp | hp | hp | hp
  · have := SetControllerBits_mem_bound _ p hp; omega
  · rcases SetBit_mem_bound _ _ p hp with h | h <;> simp [kGroupFlagOffset] at h <;> omega
  · rcases SetBit_mem_bound _ _ p hp with h | h <;> simp [kOnFlagOffset] at h <;> omega
  · have := SetDeviceBits_mem_bound _ p hp; omega

theorem DeviceOffWrites_bound (c d : Nat) : ∀ p ∈ DeviceOffWrites c d, p.1 < 64 := by
  intro p hp
  simp only [DeviceOffWrites, List.append_assoc, List.mem_append] at hp
  rcases hp with hp | hp | hp | hp
  · have := SetControllerBits_mem_bound _ p hp; omega
  · rcases SetBit_mem_bound _ _ p hp with h | h <;> simp [kGroupFlagOffset] at h <;> omega
  · rcases SetBit_mem_bound _ _ p hp with h | h <;> simp [kOnFlagOffset] at h <;> omega
  · have := SetDeviceBits_mem_bound _ p hp; omega

theorem GroupOnWrites_bound (c : Nat) : ∀ p ∈ GroupOnWrites c, p.1 < 64 := by
  intro p hp
  simp only [GroupOnWrites, List.append_assoc, List.mem_append] at hp
  rcases hp with hp | hp | hp | hp
  · have := SetControllerBits_mem_bound _ p hp; omega
  · have := SetDeviceBits_mem_bound _ p hp; omega
  · rcases SetBit_mem_bound _ _ p hp with h | h <;> simp [kGroupFlagOffset] at h <;> omega
  · rcases SetBit_mem_bound _ _ p hp with h | h <;> simp [kOnFlagOffset] at h <;> omega

theorem GroupOffWrites_bound (c : Nat) : ∀ p ∈ GroupOffWrites c, p.1 < 64 := by
  intro p hp
  simp only [GroupOffWrites, List.append_assoc, List.mem_append] at hp
  rcases hp with hp | hp | hp | hp
  · have := SetControllerBits_mem_bound _ p hp; omega
  · have := SetDeviceBits_mem_bound _ p hp; omega
  · rcases SetBit_mem_bound _ _ p hp with h | h <;> simp [kGroupFlagOffset] at h <;> omega
  · rcases SetBit_mem_bound _ _ p hp with h | h <;> simp [kOnFlagOffset] at h <;> omega

theorem DeviceDimWrites_bound (c d l : Nat) : ∀ p ∈ DeviceDimWrites c d l, p.1 < 72 := by
  intro p hp
  simp only [DeviceDimWrites, List.append_assoc, List.mem_append] at hp
  rcases hp with hp | hp | hp | hp | hp
  · have := SetControllerBits_mem_bound _ p hp; omega
  · rcases SetBit_mem_bound _ _ p hp with h | h <;> simp [kGroupFlagOffset] at h <;> omega
  · simp [kOnFlagOffset] at hp
    rcases hp with hp | hp <;> simp [hp]
  · have := SetDeviceBits_mem_bound _ p hp; omega
  · have := dimLoop_mem_bound _ p hp; omega

/-! ### The claims -/

/-- C1: every logical frame bit is written by `SetBit`; a logical 0
produces the low-pulse pair (275, 1225) at the two wire slots of the bit
and a logical 1 the pair (1225, 275), and decoding the pair produced for
a bit recovers that bit. -/
theorem wire_bit_encoding_roundtrip (i : Nat) (b : Bool) :
    SetBit i false = [(i * 2, 275), (i * 2 + 1, 1225)] ∧
    SetBit i true = [(i * 2, 1225), (i * 2 + 1, 275)] ∧
    decodePair (((SetBit i b).getD 0 (0, 0)).2, ((SetBit i b).getD 1 (0, 0)).2)
      = some b := by
  refine ⟨rfl, rfl, ?_⟩
  cases b <;> rfl

/-- C2: after `DeviceOn` the group-flag slots (52, 53) hold the wire
pattern of bit 0 and the on-flag slots (54, 55) that of bit 1; after
`DeviceOff` the on-flag slots hold bit 0; after `GroupOn`/`GroupOff` the
group-flag slots hold bit 1, the on-flag slots bit 1/0, and the device
field slots (56–63) hold the encoding of device id 0. -/
theorem command_flag_and_device_fields (c d : Nat) :
    [52, 53, 54, 55].map (bufferAfter (DeviceOnWrites c d))
      = [275, 1225, 1225, 275] ∧
    [52, 53, 54, 55].map (bufferAfter (DeviceOffWrites c d))
      = [275, 1225, 275, 1225] ∧
    [52, 53, 54, 55, 56, 57, 58, 59, 60, 61, 62, 63].map (bufferAfter (GroupOnWrites c))
      = [1225, 275, 1225, 275, 275, 1225, 275, 1225, 275, 1225, 275, 1225] ∧
    [52, 53, 54, 55, 56, 57, 58, 59, 60, 61, 62, 63].map (bufferAfter (GroupOffWrites c))
      = [1225, 275, 275, 1225, 275, 1225, 275, 1225, 275, 1225, 275, 1225] := by
  refine ⟨?_, ?_, ?_, ?_⟩
  · simp only [List.map_cons, List.map_nil]
    rw [deviceOn_slot c d 52 (by omega) (by omega), deviceOn_slot c d 53 (by omega) (by omega),
      deviceOn_slot c d 54 (by omega) (by omega), deviceOn_slot c d 55 (by omega) (by omega)]
    decide
  · simp only [List.map_cons, List.map_nil]
    rw [deviceOff_slot c d 52 (by omega) (by omega), deviceOff_slot c d 53 (by omega) (by omega),
      deviceOff_slot c d 54 (by omega) (by omega), deviceOff_slot c d 55 (by omega) (by omega)]
    decide
  · simp only [List.map_cons, List.map_nil]
    rw [groupOn_slot c 52 (by omega), groupOn_slot c 53 (by omega),
      groupOn_slot c 54 (by omega), groupOn_slot c 55 (by omega),
      groupOn_slot c 56 (by omega), groupOn_slot c 57 (by omega),
      groupOn_slot c 58 (by omega), groupOn_slot c 59 (by omega),
      groupOn_slot c 60 (by omega), groupOn_slot c 61 (by omega),
      groupOn_slot c 62 (by omega), groupOn_slot c 63 (by omega)]
    decide
  · simp only [List.map_cons, List.map_nil]
    rw [groupOff_slot c 52 (by omega), groupOff_slot c 53 (by omega),
      groupOff_slot c 54 (by omega), groupOff_slot c 55 (by omega),
      groupOff_slot c 56 (by omega), groupOff_slot c 57 (by omega),
      groupOff_slot c 58 (by omega), groupOff_slot c 59 (by omega),
      groupOff_slot c 60 (by omega), groupOff_slot c 61 (by omega),
      groupOff_slot c 62 (by omega), groupOff_slot c 63 (by omega)]
    decide

/-- C3: for every in-range input, `itob` produces the standard MSB-first
(big-endian) fixed-width binary representation — 26 bits for the
controller id, 4 bits for the device id and for the dim level. -/
theorem itob_matches_bigEndian (n m : Nat) (hc : n < 2 ^ 26) (hm : m < 2 ^ 4) :
    itob n kControllerIdLength = natBitsBE kControllerIdLength n ∧
    itob m kDeviceIdLength = natBitsBE kDeviceIdLength m ∧
    itob m kDimLength = natBitsBE kDimLength m := by
  refine ⟨?_, ?_, ?_⟩
  · exact itob_eq_natBitsBE 26 (by omega) n hc
  · exact itob_eq_natBitsBE 4 (by omega) m hm
  · exact itob_eq_natBitsBE 4 (by omega) m hm

/-- Witness for C3 at the concrete inputs 21 (controller) and 13 (device
or dim). -/
theorem itob_matches_bigEndian_witness :
    (21 : Nat) < 2 ^ 26 ∧ (13 : Nat) < 2 ^ 4 ∧
    (itob 21 kControllerIdLength = natBitsBE kControllerIdLength 21 ∧
      itob 13 kDeviceIdLength = natBitsBE kDeviceIdLength 13 ∧
      itob 13 kDimLength = natBitsBE kDimLength 13) :=
  ⟨by decide, by decide, itob_matches_bigEndian 21 13 (by decide) (by decide)⟩

/-- C4: every non-dim command calls `Transmit(kLowPulseLength)` and so
the data loop consumes exactly 64 low-pulse entries; `DeviceDim` calls
`Transmit(kLowPulseLength + kDimLength * 2)` and consumes exactly 72. -/
theorem transmitted_low_pulse_counts (c d l : Nat) :
    (transmittedLows (bufferAfter (DeviceOnWrites c d)) kLowPulseLength).length = 64 ∧
    (transmittedLows (bufferAfter (DeviceOffWrites c d)) kLowPulseLength).length = 64 ∧
    (transmittedLows (bufferAfter (GroupOnWrites c)) kLowPulseLength).length = 64 ∧
    (transmittedLows (bufferAfter (GroupOffWrites c)) kLowPulseLength).length = 64 ∧
    (transmittedLows (bufferAfter (DeviceDimWrites c d l))
        (kLowPulseLength + kDimLength * 2)).length = 72 := by
  refine ⟨?_, ?_, ?_, ?_, ?_⟩ <;>
    simp [transmittedLows, kLowPulseLength, kDimLength]

/-- C5: one `Transmit` call is exactly two identical repeats bracketed by
the interrupt mask, and each repeat is Latch1 (high 275, low 9900),
Latch2 (high 275, low 2675), one high-275/low-entry pair per sequence
entry in order, a trailing Latch2, the optional LED events, and the
10000 microsecond gap. -/
theorem transmit_waveform_structure (led_pin : Nat) (a : Nat → Nat) (n : Nat) :
    Transmit led_pin a n =
      Ev.intsOff ::
        (TransmitRepeat led_pin a n ++ TransmitRepeat led_pin a n ++ [Ev.intsOn]) ∧
    TransmitRepeat led_pin a n =
      (if led_pin > 0 then [Ev.ledOn] else [])
        ++ [Ev.txHigh, Ev.delayUs 275, Ev.txLow, Ev.delayUs 9900]
        ++ [Ev.txHigh, Ev.delayUs 275, Ev.txLow, Ev.delayUs 2675]
        ++ (List.range n).flatMap
            (fun i => [Ev.txHigh, Ev.delayUs 275, Ev.txLow, Ev.delayUs (a i)])
        ++ [Ev.txHigh, Ev.delayUs 275, Ev.txLow, Ev.delayUs 2675]
        ++ (if led_pin > 0 then [Ev.ledOff] else [])
        ++ [Ev.delayUs 10000] :=
  ⟨rfl, rfl⟩

/-- C6: for every dim level, `DeviceDim` stores the reserved pattern
(275, 275) in the on-flag slots (54, 55) — which is not the wire pattern
of any logical bit — and, because `15/100` truncates to 0, the appended
dim field always encodes the value 0 (four 0-bits, wire pairs
(275, 1225) at slots 64–71). -/
theorem deviceDim_reserved_pattern_and_zero_dim (c d l : Nat) :
    [54, 55].map (bufferAfter (DeviceDimWrites c d l)) = [275, 275] ∧
    dimScale l = 0 ∧
    itob (dimScale l) kDimLength = [false, false, false, false] ∧
    [64, 65, 66, 67, 68, 69, 70, 71].map (bufferAfter (DeviceDimWrites c d l))
      = [275, 1225, 275, 1225, 275, 1225, 275, 1225] ∧
    (∀ b : Bool, SetBit kOnFlagOffset b ≠ [(54, 275), (55, 275)]) := by
  refine ⟨?_, dimScale_eq_zero l, ?_, ?_, ?_⟩
  · simp only [List.map_cons, List.map_nil]
    rw [deviceDim_flag_slot c d l 54 (by omega) (by omega),
      deviceDim_flag_slot c d l 55 (by omega) (by omega)]
    decide
  · rw [dimScale_eq_zero l]
    decide
  · simp only [List.map_cons, List.map_nil]
    rw [deviceDim_dim_slot c d l 64 (by omega), deviceDim_dim_slot c d l 65 (by omega),
      deviceDim_dim_slot c d l 66 (by omega), deviceDim_dim_slot c d l 67 (by omega),
      deviceDim_dim_slot c d l 68 (by omega), deviceDim_dim_slot c d l 69 (by omega),
      deviceDim_dim_slot c d l 70 (by omega), deviceDim_dim_slot c d l 71 (by omega),
      dimScale_eq_zero l]
    decide
  · intro b
    cases b <;> simp [SetBit, kOnFlagOffset, kPulseLow0, kPulseLow1]

/-- C7 counterexample: for the out-of-range device id 17, `itob` yields
the all-zero field, not the binary representation of 17 mod 16 = 1; the
buffer written by `DeviceOn` with device id 17 therefore differs at slot
63 from the one written with device id 17 mod 16, refuting the claimed
wraparound-modulo encoding. -/
theorem itob_truncation_not_mod :
    itob 17 kDeviceIdLength = [false, false, false, false] ∧
    natBitsBE kDeviceIdLength (17 % 2 ^ 4) = [false, false, false, true] ∧
    itob 17 kDeviceIdLength ≠ natBitsBE kDeviceIdLength (17 % 2 ^ 4) ∧
    bufferAfter (DeviceOnWrites 0 17) 63 = 1225 ∧
    bufferAfter (DeviceOnWrites 0 (17 % 2 ^ 4)) 63 = 275 := by
  refine ⟨by decide, by decide, by decide, by decide, by decide⟩

/-- C7 amended: out-of-range values never overflow adjacent fields —
`itob` always produces exactly the field width in bits, and the writes
of the controller and device fields stay inside their own slot ranges
for every input — but the encoded field is not in general the input
reduced modulo the field width. -/
theorem field_width_never_overflows (n length : Nat) :
    (itob n length).length = length ∧
    ((SetControllerBits n).all fun p => decide (p.1 < 52)) = true ∧
    ((SetDeviceBits n).all fun p => decide (56 ≤ p.1) && decide (p.1 < 64)) = true := by
  refine ⟨itob_length n length, ?_, ?_⟩
  · rw [List.all_eq_true]
    intro p hp
    simpa using SetControllerBits_mem_bound n p hp
  · rw [List.all_eq_true]
    intro p hp
    simpa using SetDeviceBits_mem_bound n p hp

/-- C8: the first event of every `Transmit` call disables interrupt
delivery, the last re-enables it, and no interrupt-control event occurs
anywhere in between — so both repeats, and every pulse in them, happen
with interrupts disabled, and interrupts are restored on the (only)
exit path. -/
theorem interrupts_bracket_every_transmission (led_pin : Nat) (a : Nat → Nat) (n : Nat) :
    Transmit led_pin a n =
      Ev.intsOff ::
        ((TransmitRepeat led_pin a n ++ TransmitRepeat led_pin a n) ++ [Ev.intsOn]) ∧
    Ev.intsOff ∉ TransmitRepeat led_pin a n ∧
    Ev.intsOn ∉ TransmitRepeat led_pin a n := by
  refine ⟨by simp [Transmit], ?_, ?_⟩ <;>
    · intro h
      by_cases hled : led_pin > 0 <;>
        simp [TransmitRepeat, TransmitLatch1, TransmitLatch2, hled] at h

/-- C9: the two-argument constructor allocates capacity
`kLowPulseLength + 2 * kDimLength` = 72; every index written by the five
commands is below 72, with the four non-dim commands staying below 64,
and every index read by `Transmit` (0 to pulse_length - 1) is below the
same bounds. -/
theorem buffer_accesses_within_capacity (tx rx c d l : Nat) :
    (NexaCtrlCtor2 tx rx).1.low_pulse_array = some 72 ∧
    ((DeviceOnWrites c d).all fun p => decide (p.1 < 64)) = true ∧
    ((DeviceOffWrites c d).all fun p => decide (p.1 < 64)) = true ∧
    ((GroupOnWrites c).all fun p => decide (p.1 < 64)) = true ∧
    ((GroupOffWrites c).all fun p => decide (p.1 < 64)) = true ∧
    ((DeviceDimWrites c d l).all fun p => decide (p.1 < 72)) = true ∧
    ((List.range kLowPulseLength).all fun i => decide (i < 64)) = true ∧
    ((List.range (kLowPulseLength + kDimLength * 2)).all fun i => decide (i < 72)) = true := by
  refine ⟨rfl, ?_, ?_, ?_, ?_, ?_, by decide, by decide⟩ <;>
    rw [List.all_eq_true] <;>
    intro p hp <;>
    simp only [decide_eq_true_eq]
  · exact DeviceOnWrites_bound c d p hp
  · exact DeviceOffWrites_bound c d p hp
  · exact GroupOnWrites_bound c p hp
  · exact GroupOffWrites_bound c p hp
  · exact DeviceDimWrites_bound c d l p hp

/-- C10: the three-argument constructor assigns only `led_pin_` and
configures only the LED pin mode on `this`; the statement
`NexaCtrl(tx_pin, rx_pin);` creates a discarded temporary, so the
resulting object keeps `tx_pin_` and `rx_pin_` uninitialised and its
pulse buffer unallocated, while the two-argument constructor run on its
own does allocate the buffer. -/
theorem three_arg_ctor_leaves_object_uninitialised (tx rx led : Nat) :
    (NexaCtrlCtor3 tx rx led).1.led_pin_ = some led ∧
    (NexaCtrlCtor3 tx rx led).1.tx_pin_ = none ∧
    (NexaCtrlCtor3 tx rx led).1.rx_pin_ = none ∧
    (NexaCtrlCtor3 tx rx led).1.low_pulse_array = none ∧
    (NexaCtrlCtor3 tx rx led).2
      = CtorEv.pinModeOutput led :: (NexaCtrlCtor2 tx rx).2 ∧
    (NexaCtrlCtor2 tx rx).1.low_pulse_array = some (kLowPulseLength + 2 * kDimLength) :=
  ⟨rfl, rfl, rfl, rfl, rfl, rfl⟩

end NexaCtrl
